import Mathlib

/-!
Shallow embedding of the prompt-processing pipeline in
`scripts/process_prompt.py` (class `PromptProcessor`), together with
theorems settling the frozen claims about its specification.

Conventions of the embedding:
* Python strings are Lean `String`s; character-level reasoning uses `String.data`.
* Python `re.match(r'^core$', s)` is embedded by `reMatchAnchored core s`:
  `re.match` anchors at the start, and the `'$'` anchor accepts both the end of
  the string and the position just before a single trailing newline (CPython
  semantics for `'$'` outside MULTILINE mode).
* Fallible operations return `Except`; filesystem and network effects are
  passed in as explicit oracle functions, so "no read / no network call"
  becomes "the result does not depend on the oracle".
-/

deriving instance DecidableEq for Except

namespace ProcessPrompt

/-! ### Character classes used by the validators' regular expressions -/

/-- `[a-z0-9]` — first/last character class of the bucket-name regex. -/
def isLowerDigit (c : Char) : Bool :=
  ('a' ≤ c && c ≤ 'z') || ('0' ≤ c && c ≤ '9')

/-- `[a-z0-9.-]` — middle character class of the bucket-name regex. -/
def isBucketMid (c : Char) : Bool :=
  isLowerDigit c || c = '.' || c = '-'

/-- `[a-zA-Z0-9]` — ASCII alphanumeric. -/
def isAsciiAlnum (c : Char) : Bool :=
  ('a' ≤ c && c ≤ 'z') || ('A' ≤ c && c ≤ 'Z') || ('0' ≤ c && c ≤ '9')

/-- `[a-zA-Z0-9/_-]` — character class of the prefix regex. -/
def isPrefixChar (c : Char) : Bool :=
  isAsciiAlnum c || c = '/' || c = '_' || c = '-'

/-- `[a-zA-Z0-9_-]` — character class of the `template`/`output_name`
schema patterns. -/
def isWordDash (c : Char) : Bool :=
  isAsciiAlnum c || c = '_' || c = '-'

/-! ### Python `re.match` with `^...$` anchors -/

/-- Whole-string language of `[a-z0-9][a-z0-9.-]{1,61}[a-z0-9]`:
length 3–63, first and last characters in `[a-z0-9]`, all middle characters
in `[a-z0-9.-]`. -/
def bucketCore (l : List Char) : Bool :=
  3 ≤ l.length && l.length ≤ 63 &&
    (match l.head? with | some c => isLowerDigit c | none => false) &&
    (match l.getLast? with | some c => isLowerDigit c | none => false) &&
    ((l.drop 1).dropLast.all isBucketMid)

/-- Whole-string language of `[a-zA-Z0-9/_-]*`. -/
def prefixCore (l : List Char) : Bool :=
  l.all isPrefixChar

/-- Embedding of CPython `re.match(r'^core$', s)` (equivalently
`re.search`, since `^` pins the match to the start): the pattern body must
match the whole string, except that the `'$'` anchor also accepts the
position immediately before a single trailing `'\n'`. -/
def reMatchAnchored (core : List Char → Bool) (l : List Char) : Bool :=
  core l || (l.getLast? = some '\n' && core l.dropLast)

/-- `needle` occurs at the start of the second list (Python `startswith`). -/
def listStartsWith : List Char → List Char → Bool
  | [], _ => true
  | _ :: _, [] => false
  | a :: as, b :: bs => a = b && listStartsWith as bs

/-- `needle` occurs somewhere in the haystack. -/
def listContainsSub (needle : List Char) : List Char → Bool
  | [] => needle.isEmpty
  | c :: rest => listStartsWith needle (c :: rest) || listContainsSub needle rest

/-- Substring test: Python's `sub in s`. -/
def containsStr (s sub : String) : Bool :=
  listContainsSub sub.data s.data

/-! ### `PromptProcessor._validate_s3_bucket_name` -/

/-- Embedding of `PromptProcessor._validate_s3_bucket_name`:
```python
pattern = r'^[a-z0-9][a-z0-9.-]{1,61}[a-z0-9]$'
if not re.match(pattern, bucket_name): return False
if '..' in bucket_name or '.-' in bucket_name or '-.' in bucket_name: return False
return True
``` -/
def validate_s3_bucket_name (bucket_name : String) : Bool :=
  if !(reMatchAnchored bucketCore bucket_name.data) then false
  else if containsStr bucket_name ".." || containsStr bucket_name ".-"
      || containsStr bucket_name "-." then false
  else true

/-- The bucket-name predicate as the specification words it: `s` matches
`^[a-z0-9][a-z0-9.-]{1,61}[a-z0-9]$` *as a whole* and contains none of
`".."`, `".-"`, `"-."`. -/
def specBucketNameValid (s : String) : Bool :=
  bucketCore s.data &&
    !(containsStr s ".." || containsStr s ".-" || containsStr s "-.")

/-! ### `PromptProcessor._validate_s3_prefix` -/

/-- Embedding of `PromptProcessor._validate_s3_prefix` (renamed here to avoid a
reserved word):
```python
if '..' in prefix or prefix.startswith('/'): return False
pattern = r'^[a-zA-Z0-9/_-]*$'
return bool(re.match(pattern, prefix))
``` -/
def s3_prefix_valid (pfx : String) : Bool :=
  if containsStr pfx ".." || pfx.data.head? = some '/' then false
  else reMatchAnchored prefixCore pfx.data

/-- The prefix predicate as the specification words it: no `".."`, does not
start with `"/"`, and matches `^[a-zA-Z0-9/_-]*$` as a whole. -/
def specPrefixValid (s : String) : Bool :=
  !(containsStr s "..") && !(s.data.head? = some '/') && prefixCore s.data

/-! ### `PromptProcessor.render_template`

The source calls `string.Template(template_content).substitute(variables)`.
CPython's `Template` scans the string left to right for `$`-sequences using
the pattern `\$(?:(?P<escaped>\$)|(?P<named>id)|{(?P<braced>id)}|(?P<invalid>))`
with `id = (?a:[_a-zA-Z][_a-zA-Z0-9]*)`:
* `$$` is an escape producing a literal `$`;
* `$name` / `${name}` is a placeholder, replaced by `variables[name]`;
  a missing key raises `KeyError(name)` at the first such placeholder, which
  `render_template` re-raises as `ValueError("Missing required variable ...")`;
* any other `$`-sequence (`$` before a non-identifier character, an unclosed
  or ill-formed `${...}`, or `$` at the end) raises
  `ValueError("Invalid placeholder ...")`, re-raised unchanged.
-/

/-- Error outcomes of `PromptProcessor.render_template`. -/
inductive RenderError where
  /-- `KeyError` from `Template.substitute`, re-raised as
  `ValueError("Missing required variable: ...")` naming the placeholder. -/
  | missingVariable (name : String)
  /-- `ValueError("Invalid placeholder in string ...")` from
  `Template.substitute`, re-raised unchanged by the final `except` clause. -/
  | invalidPlaceholder
deriving DecidableEq, Repr

/-- `[_a-zA-Z]` — first character of a placeholder identifier. -/
def isIdentStart (c : Char) : Bool :=
  c = '_' || ('a' ≤ c && c ≤ 'z') || ('A' ≤ c && c ≤ 'Z')

/-- `[_a-zA-Z0-9]` — subsequent characters of a placeholder identifier. -/
def isIdentChar (c : Char) : Bool :=
  isIdentStart c || ('0' ≤ c && c ≤ '9')

/-- One left-to-right pass of `Template.substitute` over the character list.
The `fuel` argument only makes the recursion structural: every step consumes
at least one character while spending exactly one unit of fuel, so the
exhaustion branch is unreachable whenever `fuel ≥ l.length`; all callers
pass `l.length`. -/
def substAux (vars : String → Option String) : Nat → List Char → Except RenderError (List Char)
  | _, [] => .ok []
  | 0, _ :: _ => .error .invalidPlaceholder
  | fuel + 1, c :: rest =>
    if c = '$' then
      match rest with
      | [] => .error .invalidPlaceholder
      | c2 :: rest2 =>
        if c2 = '$' then (substAux vars fuel rest2).map fun t => '$' :: t
        else if c2 = '{' then
          match rest2 with
          | [] => .error .invalidPlaceholder
          | c3 :: rest3 =>
            if isIdentStart c3 then
              match rest3.dropWhile isIdentChar with
              | [] => .error .invalidPlaceholder
              | c4 :: rest5 =>
                if c4 = '}' then
                  let name := String.mk (c3 :: rest3.takeWhile isIdentChar)
                  match vars name with
                  | some v => (substAux vars fuel rest5).map fun t => v.data ++ t
                  | none => .error (.missingVariable name)
                else .error .invalidPlaceholder
            else .error .invalidPlaceholder
        else if isIdentStart c2 then
          let name := String.mk (c2 :: rest2.takeWhile isIdentChar)
          match vars name with
          | some v =>
            (substAux vars fuel (rest2.dropWhile isIdentChar)).map fun t => v.data ++ t
          | none => .error (.missingVariable name)
        else .error .invalidPlaceholder
    else (substAux vars fuel rest).map fun t => c :: t

/-- Embedding of `PromptProcessor.render_template`. -/
def render_template (template_content : String) (vars : String → Option String) :
    Except RenderError String :=
  (substAux vars template_content.data.length template_content.data).map String.mk

/-! Scanning a template for its `$`-sequences, independently of any variable
map: `scanTokens l = some toks` states that every `$` in `l` begins a
well-formed escape (`$$`) or placeholder (`$id` / `${id}`), and lists them in
left-to-right order; `none` means `substitute` hits an invalid placeholder.
The recursion mirrors `substAux` case for case. -/

/-- A `$`-sequence recognised by `Template`'s pattern. -/
inductive Tok where
  /-- the escape `$$` -/
  | escape
  /-- a placeholder `$name` or `${name}` -/
  | ph (name : String)
deriving DecidableEq, Repr

/-- Collect the `$`-sequences of a template, left to right (`none` if some
`$` begins neither an escape nor a placeholder). Same fuel discipline as
`substAux`. -/
def scanAux : Nat → List Char → Option (List Tok)
  | _, [] => some []
  | 0, _ :: _ => none
  | fuel + 1, c :: rest =>
    if c = '$' then
      match rest with
      | [] => none
      | c2 :: rest2 =>
        if c2 = '$' then (scanAux fuel rest2).map fun t => Tok.escape :: t
        else if c2 = '{' then
          match rest2 with
          | [] => none
          | c3 :: rest3 =>
            if isIdentStart c3 then
              match rest3.dropWhile isIdentChar with
              | [] => none
              | c4 :: rest5 =>
                if c4 = '}' then
                  (scanAux fuel rest5).map fun t =>
                    Tok.ph (String.mk (c3 :: rest3.takeWhile isIdentChar)) :: t
                else none
            else none
        else if isIdentStart c2 then
          (scanAux fuel (rest2.dropWhile isIdentChar)).map fun t =>
            Tok.ph (String.mk (c2 :: rest2.takeWhile isIdentChar)) :: t
        else none
    else scanAux fuel rest

/-- The `$`-sequences of a template string. -/
def scanTokens (s : String) : Option (List Tok) :=
  scanAux s.data.length s.data

/-- The placeholder names among a token list, in order. -/
def phNames (toks : List Tok) : List String :=
  toks.filterMap fun t => match t with | .ph n => some n | .escape => none

/-- The first placeholder name (in left-to-right order) not bound by `vars`. -/
def firstUnbound (vars : String → Option String) (toks : List Tok) : Option String :=
  (phNames toks).find? fun n => (vars n).isNone

/-! ### `PromptProcessor.__init__` -/

/-- `PromptProcessor.ALLOWED_REGIONS` (a Python `set`; order is irrelevant,
only membership is used). -/
def ALLOWED_REGIONS : List String :=
  ["us-east-1", "us-east-2", "us-west-1", "us-west-2",
   "eu-west-1", "eu-west-2", "eu-central-1",
   "ap-southeast-1", "ap-southeast-2", "ap-northeast-1"]

/-- Python `s.rstrip('/')`: remove every trailing `'/'`. -/
def rstripSlashes (s : String) : String :=
  String.mk (s.data.reverse.dropWhile (fun c => c = '/')).reverse

/-- The attributes a successfully constructed `PromptProcessor` stores
(`s3_prefix_str` embeds `self.s3_prefix = s3_prefix.rstrip('/') + '/'`). -/
structure ProcessorState where
  aws_region : String
  s3_bucket : String
  s3_prefix_str : String
deriving DecidableEq, Repr

/-- The `ValueError`s (and client-initialisation failure) `__init__` can
raise, in source order. -/
inductive InitError where
  | invalidRegion (region : String)
  | invalidBucket (bucket : String)
  | invalidPfx (pfx : String)
  | clientInitFailed
deriving DecidableEq, Repr

/-- Embedding of `PromptProcessor.__init__`. `mkClient` is the
`boto3.client` oracle: `false` means client construction raises (the code's
`except` block re-raises). The region allowlist check comes first, before
any client is created. -/
def PromptProcessor_init (mkClient : String → Bool)
    (aws_region s3_bucket s3_pfx : String) : Except InitError ProcessorState :=
  if !(ALLOWED_REGIONS.contains aws_region) then .error (.invalidRegion aws_region)
  else if !(validate_s3_bucket_name s3_bucket) then .error (.invalidBucket s3_bucket)
  else if !(s3_prefix_valid s3_pfx) then .error (.invalidPfx s3_pfx)
  else if !(mkClient aws_region) then .error .clientInitFailed
  else .ok { aws_region := aws_region, s3_bucket := s3_bucket,
             s3_prefix_str := rstripSlashes s3_pfx ++ "/" }

/-- The object key computed in `process_prompt`:
`s3_key = f"{self.s3_prefix}outputs/{output_name}.{output_format}"`. -/
def s3_output_key (st : ProcessorState) (output_name output_format : String) : String :=
  st.s3_prefix_str ++ "outputs/" ++ output_name ++ "." ++ output_format

/-! ### Configuration records and `PromptProcessor.load_config` -/

/-- A JSON value (only the constructors the pipeline inspects). -/
inductive JVal where
  | str (v : String)
  | arr (elems : List JVal)
  | obj (fields : List (String × JVal))

/-- The `model_params` object of a configuration / an invocation
(`dict.get` with a default is `Option.getD`). Python floats are modelled as
exact rationals. -/
structure ModelParams where
  max_tokens : Option Int
  temperature : Option ℚ
  top_p : Option ℚ
deriving DecidableEq, Repr

/-- A parsed configuration record, typed as `PROMPT_CONFIG_SCHEMA` shapes it
(`template`, `output_name`, `variables` are the schema's required fields, so
they are non-optional here; a JSON document of any other shape is rejected
by the schema before the steps modelled below). -/
structure PromptConfig where
  template : String
  output_name : String
  output_format : Option String
  model_id : Option String
  model_params : Option ModelParams
  /-- the `variables` mapping (`variables` is a reserved word in Lean) -/
  varsMap : List (String × JVal)

/-- Whole-string language of `[a-zA-Z0-9_-]+\.txt`: a non-empty stem over
`[a-zA-Z0-9_-]` followed by the literal suffix `".txt"` (the stem class has
no `'.'`, so the decomposition is unique). -/
def templatePat (l : List Char) : Bool :=
  l.drop (l.length - 4) = ['.', 't', 'x', 't'] &&
    !(l.take (l.length - 4)).isEmpty && (l.take (l.length - 4)).all isWordDash

/-- Whole-string language of `[a-zA-Z0-9_-]+`. -/
def outputNamePat (l : List Char) : Bool :=
  !l.isEmpty && l.all isWordDash

/-- Embedding of `jsonschema.validate(config, PROMPT_CONFIG_SCHEMA)` on a
typed record: the `pattern` keyword uses `re.search`, whose `^...$` anchors
behave as in `reMatchAnchored`; `output_format` must be `"html"` or `"md"`;
`model_params` bounds are `max_tokens ∈ [1, 100000]`,
`temperature, top_p ∈ [0, 1]`. -/
def schema_valid (c : PromptConfig) : Bool :=
  reMatchAnchored templatePat c.template.data &&
  reMatchAnchored outputNamePat c.output_name.data &&
  (match c.output_format with
   | none => true
   | some f => f = "html" || f = "md") &&
  (match c.model_params with
   | none => true
   | some p =>
     (match p.max_tokens with | none => true | some n => 1 ≤ n && n ≤ 100000) &&
     (match p.temperature with | none => true | some q => 0 ≤ q && q ≤ 1) &&
     (match p.top_p with | none => true | some q => 0 ≤ q && q ≤ 1))

/-- `PromptProcessor.MAX_VARIABLES`. -/
def MAX_VARIABLES : Nat := 50

/-- Validation failures of `load_config` after a successful parse. -/
inductive ConfigError where
  /-- `ValueError("Invalid configuration: ...")` from the schema check. -/
  | schemaValidation
  /-- `ValueError("Too many variables: ...")`. -/
  | limitExceeded
deriving DecidableEq, Repr

/-- Embedding of the validation steps of `PromptProcessor.load_config` on an
already parsed configuration (path confinement and JSON parsing are prior,
independent failure points):
```python
validate(instance=config, schema=PROMPT_CONFIG_SCHEMA)   # ValueError on failure
if len(config.get('variables', {})) > self.MAX_VARIABLES:
    raise ValueError(...)
return config
``` -/
def load_config_validate (c : PromptConfig) : Except ConfigError PromptConfig :=
  if !(schema_valid c) then .error .schemaValidation
  else if MAX_VARIABLES < c.varsMap.length then .error .limitExceeded
  else .ok c

/-! ### `PromptProcessor.invoke_bedrock` -/

/-- The default model identifier. -/
def defaultModelId : String := "anthropic.claude-3-sonnet-20240229-v1:0"

/-- The default `model_params` dict
(`{"max_tokens": 2048, "temperature": 0.7, "top_p": 0.9}`). -/
def defaultModelParams : ModelParams :=
  { max_tokens := some 2048, temperature := some 0.7, top_p := some 0.9 }

/-- The request body for the `"anthropic.claude"` family:
`{anthropic_version, max_tokens, temperature, top_p, messages: [{role:
"user", content: prompt}]}` (messages as `(role, content)` pairs). -/
structure ClaudeRequest where
  anthropic_version : String
  max_tokens : Int
  temperature : ℚ
  top_p : ℚ
  messages : List (String × String)
deriving DecidableEq, Repr

/-- The request body for the `"amazon.titan"` family:
`{inputText, textGenerationConfig: {maxTokenCount, temperature, topP}}`. -/
structure TitanRequest where
  inputText : String
  maxTokenCount : Int
  temperature : ℚ
  topP : ℚ
deriving DecidableEq, Repr

/-- A serialised request body (`json.dumps` of one of the two dict shapes). -/
inductive RequestBody where
  | claude (r : ClaudeRequest)
  | titan (r : TitanRequest)
deriving DecidableEq, Repr

/-- The claude-family body construction in `invoke_bedrock`. -/
def claudeRequestBody (prompt : String) (mp : ModelParams) : RequestBody :=
  .claude { anthropic_version := "bedrock-2023-05-31",
            max_tokens := mp.max_tokens.getD 2048,
            temperature := mp.temperature.getD 0.7,
            top_p := mp.top_p.getD 0.9,
            messages := [("user", prompt)] }

/-- The titan-family body construction in `invoke_bedrock`. -/
def titanRequestBody (prompt : String) (mp : ModelParams) : RequestBody :=
  .titan { inputText := prompt,
           maxTokenCount := mp.max_tokens.getD 2048,
           temperature := mp.temperature.getD 0.7,
           topP := mp.top_p.getD 0.9 }

/-- Field access on a JSON object (`resp[key]`, `None` on a missing key or a
non-object). -/
def jField (k : String) : JVal → Option JVal
  | .obj fields => fields.lookup k
  | _ => none

/-- Index access on a JSON array (`resp[i]`). -/
def jIndex (i : Nat) : JVal → Option JVal
  | .arr elems => elems.get? i
  | _ => none

/-- `response_body['content'][0]['text']` (claude-family extraction). -/
def extract_claude_text (resp : JVal) : Option String :=
  match ((jField "content" resp).bind (jIndex 0)).bind (jField "text") with
  | some (.str t) => some t
  | _ => none

/-- `response_body['results'][0]['outputText']` (titan-family extraction). -/
def extract_titan_text (resp : JVal) : Option String :=
  match ((jField "results" resp).bind (jIndex 0)).bind (jField "outputText") with
  | some (.str t) => some t
  | _ => none

/-- Failure outcomes of `invoke_bedrock`. -/
inductive InvokeError where
  /-- `ValueError(f"Unsupported model family: {model_id}")`, raised before
  `bedrock_runtime.invoke_model` is called. -/
  | unsupportedModel (model_id : String)
  /-- a `ClientError`/`BotoCoreError` from the network call, re-raised as
  `RuntimeError`. -/
  | networkError
  /-- the response body lacks the family-specific shape (an uncaught
  `KeyError`/`IndexError`/`TypeError` in Python). -/
  | badResponse
deriving DecidableEq, Repr

/-- Embedding of `PromptProcessor.invoke_bedrock`. `net` is the
`bedrock_runtime.invoke_model` oracle, mapping the request body to the
parsed response body (`none` = transport/service error). Defaults mirror
the source: `model_id` defaults to `defaultModelId`; a missing
`model_params` dict defaults to `{max_tokens: 2048, temperature: 0.7,
top_p: 0.9}`, and each `model_params.get(..., default)` falls back again. -/
def invoke_bedrock (net : RequestBody → Option JVal) (prompt : String)
    (model_id : Option String) (model_params : Option ModelParams) :
    Except InvokeError String :=
  let mid := model_id.getD defaultModelId
  let mp := model_params.getD defaultModelParams
  if containsStr mid "anthropic.claude" then
    match net (claudeRequestBody prompt mp) with
    | none => .error .networkError
    | some resp =>
      match extract_claude_text resp with
      | some t => .ok t
      | none => .error .badResponse
  else if containsStr mid "amazon.titan" then
    match net (titanRequestBody prompt mp) with
    | none => .error .networkError
    | some resp =>
      match extract_titan_text resp with
      | some t => .ok t
      | none => .error .badResponse
  else .error (.unsupportedModel mid)

/-! ### `PromptProcessor._validate_path` and `load_template`

Filesystem paths are segment lists; a `pathlib.Path` value is a flag
(absolute?) plus its segments. `Path.resolve()` is passed in as an oracle
(`none` = resolution raised); `lexResolve cwd` is its concrete behaviour on
a filesystem without symlinks: prepend the working directory to a relative
path and normalise `"."`/`".."` lexically (`".."` at the root stays at the
root, as in POSIX). -/

/-- A `pathlib.Path`: absolute flag and segments. -/
structure PyPath where
  isAbsolute : Bool
  segs : List String
deriving DecidableEq, Repr

/-- Left fold normalising `"."` and `".."` segments against an accumulated
absolute segment stack. -/
def normSegsAux (acc : List String) : List String → List String
  | [] => acc
  | s :: rest =>
    if s = "." then normSegsAux acc rest
    else if s = ".." then normSegsAux acc.dropLast rest
    else normSegsAux (acc ++ [s]) rest

/-- `Path.resolve()` relative to the working directory `cwd` (given as the
segments of an absolute path), on a filesystem without symlinks. -/
def lexResolve (cwd : List String) (p : PyPath) : List String :=
  normSegsAux [] ((if p.isAbsolute then [] else cwd) ++ p.segs)

/-- `str(path)` for a resolved absolute path: `"/"` joined segments, `"/"`
for the root. -/
def pathString (segs : List String) : List Char :=
  if segs.isEmpty then ['/'] else segs.foldl (fun acc s => acc ++ '/' :: s.data) []

/-- `_validate_path` wraps its whole body in `try/except Exception`, so both
the explicit outside-base `ValueError` and a resolution failure surface as
`ValueError(f"Invalid path: {file_path}")`. -/
inductive PathError where
  | invalidPath
deriving DecidableEq, Repr

/-- Embedding of `PromptProcessor._validate_path`:
```python
resolved_path = file_path.resolve()
resolved_base = base_dir.resolve()
if not str(resolved_path).startswith(str(resolved_base)):
    raise ValueError(...)
return resolved_path
```
with any exception re-raised as `ValueError("Invalid path: ...")`. -/
def validate_path (resolve : PyPath → Option (List String))
    (file_path base_dir : PyPath) : Except PathError (List String) :=
  match resolve file_path, resolve base_dir with
  | some rp, some rb =>
    if listStartsWith (pathString rb) (pathString rp) then .ok rp
    else .error .invalidPath
  | _, _ => .error .invalidPath

/-- `PromptProcessor.PROMPT_TEMPLATES_DIR = Path('prompt_templates').resolve()`
(kept unresolved here; `_validate_path` resolves it against the same working
directory, and `resolve` is idempotent). -/
def PROMPT_TEMPLATES_DIR : PyPath := ⟨false, ["prompt_templates"]⟩

/-- `PromptProcessor.MAX_TEMPLATE_SIZE` (100 KiB). -/
def MAX_TEMPLATE_SIZE : Nat := 100 * 1024

/-- Failure outcomes of `load_template`. -/
inductive LoadError where
  /-- the `ValueError` re-raised from `_validate_path` -/
  | invalidPath
  /-- `FileNotFoundError` -/
  | notFound
  /-- `ValueError("Template too large ...")` -/
  | tooLarge
deriving DecidableEq, Repr

/-- Embedding of `PromptProcessor.load_template`. `fs` is the filesystem
oracle mapping a resolved path to a file's content (`none` = no such file);
it is consulted only after path validation succeeds. -/
def load_template (resolve : PyPath → Option (List String))
    (fs : List String → Option String) (template_path : PyPath) :
    Except LoadError String :=
  match validate_path resolve template_path PROMPT_TEMPLATES_DIR with
  | .error _ => .error .invalidPath
  | .ok rp =>
    match fs rp with
    | none => .error .notFound
    | some content =>
      if MAX_TEMPLATE_SIZE < content.length then .error .tooLarge
      else .ok content

/-- A working directory is plain when no segment is `"."` or `".."` (any
real `os.getcwd()` satisfies this). -/
def plainCwd (cwd : List String) : Bool :=
  cwd.all fun s => !(s = ".") && !(s = "..")

/-! ## Supporting lemmas -/

theorem listStartsWith_length_le :
    ∀ l₁ l₂ : List Char, listStartsWith l₁ l₂ = true → l₁.length ≤ l₂.length := by
  intro l₁
  induction l₁ with
  | nil => intro l₂ _; exact Nat.zero_le _
  | cons a as ih =>
    intro l₂ h
    cases l₂ with
    | nil => simp [listStartsWith] at h
    | cons b bs =>
      simp only [listStartsWith, Bool.and_eq_true] at h
      simpa using ih bs h.2

theorem dropWhile_head_false {p : Char → Bool} :
    ∀ (l : List Char) (a : Char), (l.dropWhile p).head? = some a → p a = false := by
  intro l
  induction l with
  | nil => intro a h; simp [List.dropWhile] at h
  | cons c rest ih =>
    intro a h
    by_cases hc : p c
    · rw [List.dropWhile_cons_of_pos hc] at h
      exact ih a h
    · rw [List.dropWhile_cons_of_neg hc] at h
      simp only [List.head?_cons, Option.some.injEq] at h
      subst h
      simpa using hc

/-! ## Claim C6 — bucket-name validation -/

/-- **C6.** The claim states `isValidBucketName(s)` is true *iff* `s` as a
whole matches `^[a-z0-9][a-z0-9.-]{1,61}[a-z0-9]$` and has none of `".."`,
`".-"`, `"-."`. The code evaluates the pattern with `re.match`, whose `'$'`
anchor also accepts the position before one trailing newline, so
`"abcd\n"` — which matches no whole-string reading of the regex and
violates S3's bucket-naming rules the function documents — is accepted.
On newline-free inputs the two notions agree (`"my-bucket"` below). -/
theorem C6_bucket_name_newline_divergence :
    validate_s3_bucket_name "abcd\n" = true ∧
    specBucketNameValid "abcd\n" = false ∧
    validate_s3_bucket_name "my-bucket" = true ∧
    specBucketNameValid "my-bucket" = true := by
  decide

/-! ## Claim C7 — prefix validation -/

/-- **C7.** The claim states `isValidPrefix(s)` is true *iff* `s` has no
`".."`, does not start with `"/"`, and matches `^[a-zA-Z0-9/_-]*$` as a
whole (empty string valid). As in C6, `re.match`'s `'$'` anchor accepts one
trailing newline, so `"ab\n"` is accepted by the code although `'\n'` is
outside the character class the code's own comment allows. The empty
string is accepted, as the claim says. -/
theorem C7_s3_key_pfx_newline_divergence :
    s3_prefix_valid "ab\n" = true ∧
    specPrefixValid "ab\n" = false ∧
    s3_prefix_valid "" = true ∧
    specPrefixValid "" = true := by
  decide

/-! ## Claim C9 — region allowlist -/

/-- **C9.** `PromptProcessor.__init__` rejects any `aws_region` outside the
ten-element `ALLOWED_REGIONS` set with `ValueError`, before any AWS client
is created (the error does not depend on the `mkClient` oracle), and
construction succeeds only for allowlisted regions. -/
theorem C9_region_allowlist (mkClient : String → Bool) (r b p : String) :
    (ALLOWED_REGIONS.contains r = false →
      PromptProcessor_init mkClient r b p = .error (.invalidRegion r)) ∧
    (∀ st, PromptProcessor_init mkClient r b p = .ok st →
      ALLOWED_REGIONS.contains r = true) := by
  constructor
  · intro h
    unfold PromptProcessor_init
    rw [h]
    rfl
  · intro st h
    cases hr : ALLOWED_REGIONS.contains r with
    | true => rfl
    | false =>
      unfold PromptProcessor_init at h
      rw [hr] at h
      simp at h

/-- Witness for C9: the unknown region `"mars-north-1"` is rejected with
`invalidRegion` for an always-succeeding client oracle, and a successful
construction at `"us-east-1"` implies allowlist membership. -/
theorem C9_region_allowlist_witness :
    PromptProcessor_init (fun _ => true) "mars-north-1" "test-bucket" "beta/" =
      .error (.invalidRegion "mars-north-1") ∧
    ALLOWED_REGIONS.contains "us-east-1" = true :=
  ⟨(C9_region_allowlist (fun _ => true) "mars-north-1" "test-bucket" "beta/").1 (by decide),
   (C9_region_allowlist (fun _ => true) "us-east-1" "test-bucket" "beta/").2
     ⟨"us-east-1", "test-bucket", "beta/"⟩ (by decide)⟩

/-! ## Claim C10 — trailing-slash invariant of the stored key pivot -/

/-- **C10.** After every successful construction the stored S3 key pivot
`self.s3_prefix = s3_prefix.rstrip('/') + '/'` ends with exactly one `'/'`
(its last character is `'/'` and the character before it, if any, is not);
a valid empty input is stored as `"/"`, and every object key computed by
`process_prompt` then begins with `'/'`. -/
theorem C10_stored_pfx_single_trailing_slash (mkClient : String → Bool)
    (r b p : String) (st : ProcessorState)
    (h : PromptProcessor_init mkClient r b p = .ok st) :
    st.s3_prefix_str.data.getLast? = some '/' ∧
    st.s3_prefix_str.data.dropLast.getLast? ≠ some '/' ∧
    (p = "" → st.s3_prefix_str = "/" ∧
      ∀ n f, (s3_output_key st n f).data.head? = some '/') := by
  have hs : st.s3_prefix_str = rstripSlashes p ++ "/" := by
    unfold PromptProcessor_init at h
    split at h
    · cases h
    split at h
    · cases h
    split at h
    · cases h
    split at h
    · cases h
    · injection h with h'
      rw [← h']
  have hdata : st.s3_prefix_str.data = (rstripSlashes p).data ++ ['/'] := by
    rw [hs]; rfl
  refine ⟨?_, ?_, ?_⟩
  · rw [hdata]
    exact List.getLast?_concat _
  · rw [hdata, List.dropLast_concat]
    intro hlast
    have : ¬ ((p.data.reverse.dropWhile (fun c => c = '/')).head? = some '/') := by
      intro hh
      have := dropWhile_head_false (p := fun c => c = '/') p.data.reverse '/' hh
      simp at this
    apply this
    rw [← List.getLast?_reverse]
    exact hlast
  · intro hp
    subst hp
    have hpfx : st.s3_prefix_str = "/" := by rw [hs]; rfl
    refine ⟨hpfx, ?_⟩
    intro n f
    show (s3_output_key st n f).data.head? = some '/'
    unfold s3_output_key
    rw [hpfx]
    rfl

/-- Witness for C10: constructing with key pivot `"beta///"` stores
`"beta/"` (one trailing slash), and constructing with `""` stores `"/"`. -/
theorem C10_stored_pfx_witness :
    (("beta/" : String).data.getLast? = some '/' ∧
     ("beta/" : String).data.dropLast.getLast? ≠ some '/') ∧
    ("/" : String).data.getLast? = some '/' :=
  have h1 := C10_stored_pfx_single_trailing_slash (fun _ => true)
    "us-east-1" "test-bucket" "beta///" ⟨"us-east-1", "test-bucket", "beta/"⟩ (by decide)
  have h2 := C10_stored_pfx_single_trailing_slash (fun _ => true)
    "us-east-1" "test-bucket" "" ⟨"us-east-1", "test-bucket", "/"⟩ (by decide)
  ⟨⟨h1.1, h1.2.1⟩, h2.1⟩

/-! ## Claim C8 — variable-count ceiling in `load_config` -/

/-- `k` distinct variable entries. -/
def manyVars (k : Nat) : List (String × JVal) :=
  (List.range k).map fun i => (toString i, JVal.str "v")

/-- Schema-valid configuration with the given variables mapping. -/
def goodCfg (vs : List (String × JVal)) : PromptConfig :=
  { template := "report.txt", output_name := "report", output_format := some "html",
    model_id := none, model_params := none, varsMap := vs }

/-- **C8** (counterexample). The claim says *every* configuration whose
`variables` has more than 50 entries is rejected *with the limit-exceeded
error*. The code checks the schema first: a configuration with 51
variables whose `template` violates the schema pattern is rejected with
the schema-validation error instead. -/
theorem C8_counterexample :
    load_config_validate
      { template := "../etc/passwd", output_name := "out", output_format := none,
        model_id := none, model_params := none, varsMap := manyVars 51 }
      = .error .schemaValidation ∧
    (manyVars 51).length = 51 ∧
    ConfigError.schemaValidation ≠ ConfigError.limitExceeded :=
  ⟨rfl, rfl, by decide⟩

/-- **C8** (amended): every configuration that passes schema validation and
has more than `MAX_VARIABLES = 50` variable entries is rejected with the
limit-exceeded error; a schema-valid configuration with at most 50 entries
is returned unchanged. -/
theorem C8_variable_ceiling (c : PromptConfig) :
    (schema_valid c = true → MAX_VARIABLES < c.varsMap.length →
      load_config_validate c = .error .limitExceeded) ∧
    (schema_valid c = true → c.varsMap.length ≤ MAX_VARIABLES →
      load_config_validate c = .ok c) := by
  constructor
  · intro h1 h2
    unfold load_config_validate
    rw [h1]
    simp [h2]
  · intro h1 h2
    unfold load_config_validate
    rw [h1]
    simp [Nat.not_lt.mpr h2]

/-- Witness for C8: a schema-valid configuration with 51 variables is
rejected with the limit-exceeded error; the same configuration with 3
variables is returned unchanged. -/
theorem C8_variable_ceiling_witness :
    load_config_validate (goodCfg (manyVars 51)) = .error .limitExceeded ∧
    load_config_validate (goodCfg (manyVars 3)) = .ok (goodCfg (manyVars 3)) :=
  ⟨(C8_variable_ceiling (goodCfg (manyVars 51))).1 rfl (by decide),
   (C8_variable_ceiling (goodCfg (manyVars 3))).2 rfl (by decide)⟩

/-! ## Claim C5 — model-family dispatch in `invoke_bedrock` -/

/-- **C5.** If the effective model identifier contains neither
`"anthropic.claude"` nor `"amazon.titan"`, `invoke_bedrock` fails with the
unsupported-model error for *every* network oracle — no request body is
ever sent. If it contains the claude marker, exactly the claude-family
body is sent (the oracle below answers only that body) and the response
text is taken from `content[0].text`; if it contains only the titan
marker, the titan-family body is sent and the text is taken from
`results[0].outputText`. -/
theorem C5_model_family_dispatch (prompt mid : String) (mp : Option ModelParams) :
    (containsStr mid "anthropic.claude" = false → containsStr mid "amazon.titan" = false →
      ∀ net, invoke_bedrock net prompt (some mid) mp = .error (.unsupportedModel mid)) ∧
    (containsStr mid "anthropic.claude" = true →
      ∀ resp t, extract_claude_text resp = some t →
        invoke_bedrock
          (fun body => if body = claudeRequestBody prompt (mp.getD defaultModelParams)
            then some resp else none)
          prompt (some mid) mp = .ok t) ∧
    (containsStr mid "anthropic.claude" = false → containsStr mid "amazon.titan" = true →
      ∀ resp t, extract_titan_text resp = some t →
        invoke_bedrock
          (fun body => if body = titanRequestBody prompt (mp.getD defaultModelParams)
            then some resp else none)
          prompt (some mid) mp = .ok t) := by
  refine ⟨?_, ?_, ?_⟩
  · intro h1 h2 net
    unfold invoke_bedrock
    simp [Option.getD, h1, h2]
  · intro h1 resp t ht
    unfold invoke_bedrock
    simp [Option.getD, h1, ht]
  · intro h1 h2 resp t ht
    unfold invoke_bedrock
    simp [Option.getD, h1, h2, ht]

/-- A response body of the claude shape. -/
def claudeResp : JVal :=
  .obj [("content", .arr [.obj [("text", .str "Hello from Claude")]])]

/-- A response body of the titan shape. -/
def titanResp : JVal :=
  .obj [("results", .arr [.obj [("outputText", .str "Hello from Titan")]])]

/-- Witness for C5: an identifier of a third family is rejected without a
network call; claude and titan identifiers get their family body and
extraction. -/
theorem C5_model_family_dispatch_witness :
    invoke_bedrock (fun _ => some (JVal.obj [])) "hi" (some "mistral.large-2402") none =
      .error (.unsupportedModel "mistral.large-2402") ∧
    invoke_bedrock
      (fun body => if body = claudeRequestBody "hi"
          ((none : Option ModelParams).getD defaultModelParams)
        then some claudeResp else none)
      "hi" (some "anthropic.claude-3-sonnet-20240229-v1:0") none = .ok "Hello from Claude" ∧
    invoke_bedrock
      (fun body => if body = titanRequestBody "hi"
          ((none : Option ModelParams).getD defaultModelParams)
        then some titanResp else none)
      "hi" (some "amazon.titan-text-express-v1") none = .ok "Hello from Titan" :=
  ⟨(C5_model_family_dispatch "hi" "mistral.large-2402" none).1 (by decide) (by decide) _,
   (C5_model_family_dispatch "hi" "anthropic.claude-3-sonnet-20240229-v1:0" none).2.1
     (by decide) claudeResp "Hello from Claude" rfl,
   (C5_model_family_dispatch "hi" "amazon.titan-text-express-v1" none).2.2
     (by decide) (by decide) titanResp "Hello from Titan" rfl⟩

/-! ## Claim C4 — idempotence of rendering -/

theorem substAux_no_dollar (vars : String → Option String) :
    ∀ fuel l, l.length ≤ fuel → '$' ∉ l → substAux vars fuel l = .ok l := by
  intro fuel
  induction fuel with
  | zero =>
    intro l hl _
    rw [List.length_eq_zero.mp (Nat.le_zero.mp hl)]
    rfl
  | succ fuel ih =>
    intro l hl hd
    cases l with
    | nil => rfl
    | cons c rest =>
      have hc : ¬ c = '$' := by
        intro hcc
        exact hd (hcc ▸ List.mem_cons_self c rest)
      show substAux vars (fuel + 1) (c :: rest) = .ok (c :: rest)
      unfold substAux
      rw [if_neg hc]
      rw [ih rest (Nat.le_of_succ_le_succ (by simpa using hl))
        (fun hm => hd (List.mem_cons_of_mem _ hm))]
      rfl

/-! ## Master lemmas relating `scanAux` and `substAux` -/

theorem length_dropWhile_le' (p : Char → Bool) :
    ∀ l : List Char, (l.dropWhile p).length ≤ l.length := by
  intro l
  induction l with
  | nil => simp [List.dropWhile]
  | cons c rest ih =>
    by_cases hc : p c
    · rw [List.dropWhile_cons_of_pos hc]
      exact Nat.le_succ_of_le ih
    · rw [List.dropWhile_cons_of_neg hc]

/-! Step equations for `scanAux` and `substAux`, one per branch shape. -/

theorem scanAux_cons_ne (fuel : Nat) (c : Char) (rest : List Char) (hc : ¬ c = '$') :
    scanAux (fuel + 1) (c :: rest) = scanAux fuel rest := by
  simp [scanAux, hc]

theorem scanAux_dollar_end (fuel : Nat) : scanAux (fuel + 1) ['$'] = none := by
  simp [scanAux]

theorem scanAux_escape (fuel : Nat) (rest2 : List Char) :
    scanAux (fuel + 1) ('$' :: '$' :: rest2) =
      (scanAux fuel rest2).map fun t => Tok.escape :: t := by
  simp [scanAux]

theorem scanAux_brace_end (fuel : Nat) : scanAux (fuel + 1) ['$', '{'] = none := by
  simp [scanAux]

theorem scanAux_braced_ok (fuel : Nat) (c3 : Char) (rest3 rest5 : List Char)
    (h4 : isIdentStart c3 = true) (hdw : rest3.dropWhile isIdentChar = '}' :: rest5) :
    scanAux (fuel + 1) ('$' :: '{' :: c3 :: rest3) =
      (scanAux fuel rest5).map fun t =>
        Tok.ph (String.mk (c3 :: rest3.takeWhile isIdentChar)) :: t := by
  simp [scanAux, h4, hdw]

theorem scanAux_braced_nil_drop (fuel : Nat) (c3 : Char) (rest3 : List Char)
    (h4 : isIdentStart c3 = true) (hdw : rest3.dropWhile isIdentChar = []) :
    scanAux (fuel + 1) ('$' :: '{' :: c3 :: rest3) = none := by
  simp [scanAux, h4, hdw]

theorem scanAux_braced_no_close (fuel : Nat) (c3 c4 : Char) (rest3 rest5 : List Char)
    (h4 : isIdentStart c3 = true) (hdw : rest3.dropWhile isIdentChar = c4 :: rest5)
    (h5 : ¬ c4 = '}') :
    scanAux (fuel + 1) ('$' :: '{' :: c3 :: rest3) = none := by
  simp [scanAux, h4, hdw, h5]

theorem scanAux_braced_bad_start (fuel : Nat) (c3 : Char) (rest3 : List Char)
    (h4 : ¬ isIdentStart c3 = true) :
    scanAux (fuel + 1) ('$' :: '{' :: c3 :: rest3) = none := by
  simp [scanAux, h4]

theorem scanAux_named (fuel : Nat) (c2 : Char) (rest2 : List Char)
    (h2 : ¬ c2 = '$') (h3 : ¬ c2 = '{') (h4 : isIdentStart c2 = true) :
    scanAux (fuel + 1) ('$' :: c2 :: rest2) =
      (scanAux fuel (rest2.dropWhile isIdentChar)).map fun t =>
        Tok.ph (String.mk (c2 :: rest2.takeWhile isIdentChar)) :: t := by
  simp [scanAux, h2, h3, h4]

theorem scanAux_invalid (fuel : Nat) (c2 : Char) (rest2 : List Char)
    (h2 : ¬ c2 = '$') (h3 : ¬ c2 = '{') (h4 : ¬ isIdentStart c2 = true) :
    scanAux (fuel + 1) ('$' :: c2 :: rest2) = none := by
  simp [scanAux, h2, h3, h4]

theorem substAux_cons_ne (vars : String → Option String) (fuel : Nat) (c : Char)
    (rest : List Char) (hc : ¬ c = '$') :
    substAux vars (fuel + 1) (c :: rest) =
      (substAux vars fuel rest).map fun t => c :: t := by
  simp [substAux, hc]

theorem substAux_escape (vars : String → Option String) (fuel : Nat) (rest2 : List Char) :
    substAux vars (fuel + 1) ('$' :: '$' :: rest2) =
      (substAux vars fuel rest2).map fun t => '$' :: t := by
  simp [substAux]

theorem substAux_braced (vars : String → Option String) (fuel : Nat) (c3 : Char)
    (rest3 rest5 : List Char) (h4 : isIdentStart c3 = true)
    (hdw : rest3.dropWhile isIdentChar = '}' :: rest5) :
    substAux vars (fuel + 1) ('$' :: '{' :: c3 :: rest3) =
      (match vars (String.mk (c3 :: rest3.takeWhile isIdentChar)) with
       | some v => (substAux vars fuel rest5).map fun t => v.data ++ t
       | none =>
         .error (.missingVariable (String.mk (c3 :: rest3.takeWhile isIdentChar)))) := by
  simp [substAux, h4, hdw]

theorem substAux_named (vars : String → Option String) (fuel : Nat) (c2 : Char)
    (rest2 : List Char) (h2 : ¬ c2 = '$') (h3 : ¬ c2 = '{') (h4 : isIdentStart c2 = true) :
    substAux vars (fuel + 1) ('$' :: c2 :: rest2) =
      (match vars (String.mk (c2 :: rest2.takeWhile isIdentChar)) with
       | some v =>
         (substAux vars fuel (rest2.dropWhile isIdentChar)).map fun t => v.data ++ t
       | none =>
         .error (.missingVariable (String.mk (c2 :: rest2.takeWhile isIdentChar)))) := by
  simp [substAux, h2, h3, h4]

/-- When the scan succeeds and every placeholder is bound, substitution
succeeds; if moreover no escape occurred and every bound value is
`'$'`-free, the output is `'$'`-free. -/
theorem substAux_ok_of_scan (vars : String → Option String) :
    ∀ fuel l toks, l.length ≤ fuel → scanAux fuel l = some toks →
      (∀ m, Tok.ph m ∈ toks → (vars m).isSome) →
      ∃ out, substAux vars fuel l = .ok out ∧
        (Tok.escape ∉ toks → (∀ m v, vars m = some v → '$' ∉ v.data) → '$' ∉ out) := by
  intro fuel
  induction fuel with
  | zero =>
    intro l toks hl hscan _
    rw [List.length_eq_zero.mp (Nat.le_zero.mp hl)] at hscan ⊢
    simp only [scanAux, Option.some.injEq] at hscan
    exact ⟨[], rfl, by simp⟩
  | succ fuel ih =>
    intro l toks hl hscan hbound
    cases l with
    | nil =>
      simp only [scanAux, Option.some.injEq] at hscan
      exact ⟨[], rfl, by simp⟩
    | cons c rest =>
      have hl' : rest.length ≤ fuel := Nat.le_of_succ_le_succ (by simpa using hl)
      by_cases hc : c = '$'
      · subst hc
        cases rest with
        | nil => rw [scanAux_dollar_end] at hscan; cases hscan
        | cons c2 rest2 =>
          by_cases h2 : c2 = '$'
          · -- escape `$$`
            subst h2
            rw [scanAux_escape] at hscan
            obtain ⟨t2, ht2, htoks⟩ := Option.map_eq_some'.mp hscan
            subst htoks
            have h2l : rest2.length ≤ fuel := by
              simp only [List.length_cons] at hl
              omega
            obtain ⟨out2, ho2, _⟩ := ih rest2 t2 h2l ht2
              (fun m hm => hbound m (List.mem_cons_of_mem _ hm))
            refine ⟨'$' :: out2, ?_, ?_⟩
            · rw [substAux_escape, ho2]
              rfl
            · intro hesc _
              exact absurd (List.mem_cons_self _ _) hesc
          · by_cases h3 : c2 = '{'
            · -- braced `${name}`
              subst h3
              cases rest2 with
              | nil => rw [scanAux_brace_end] at hscan; cases hscan
              | cons c3 rest3 =>
                by_cases h4 : isIdentStart c3
                · cases hdw : rest3.dropWhile isIdentChar with
                  | nil =>
                    rw [scanAux_braced_nil_drop fuel c3 rest3 h4 hdw] at hscan
                    cases hscan
                  | cons c4 rest5 =>
                    by_cases h5 : c4 = '}'
                    · subst h5
                      rw [scanAux_braced_ok fuel c3 rest3 rest5 h4 hdw] at hscan
                      obtain ⟨t5, ht5, htoks⟩ := Option.map_eq_some'.mp hscan
                      subst htoks
                      have h5l : rest5.length ≤ fuel := by
                        have := length_dropWhile_le' isIdentChar rest3
                        rw [hdw] at this
                        simp only [List.length_cons] at this hl
                        omega
                      have hname := hbound _ (List.mem_cons_self _ _)
                      obtain ⟨v, hv⟩ := Option.isSome_iff_exists.mp hname
                      obtain ⟨out5, ho5, hnd5⟩ := ih rest5 t5 h5l ht5
                        (fun m hm => hbound m (List.mem_cons_of_mem _ hm))
                      refine ⟨v.data ++ out5, ?_, ?_⟩
                      · rw [substAux_braced vars fuel c3 rest3 rest5 h4 hdw, hv, ho5]
                        rfl
                      · intro hesc hclean hmem
                        rcases List.mem_append.mp hmem with hmv | hm5
                        · exact hclean _ v hv hmv
                        · exact hnd5 (fun he => hesc (List.mem_cons_of_mem _ he)) hclean hm5
                    · rw [scanAux_braced_no_close fuel c3 c4 rest3 rest5 h4 hdw h5] at hscan
                      cases hscan
                · rw [scanAux_braced_bad_start fuel c3 rest3 h4] at hscan
                  cases hscan
            · by_cases h4 : isIdentStart c2
              · -- named `$name`
                rw [scanAux_named fuel c2 rest2 h2 h3 h4] at hscan
                obtain ⟨td, htd, htoks⟩ := Option.map_eq_some'.mp hscan
                subst htoks
                have hdl : (rest2.dropWhile isIdentChar).length ≤ fuel := by
                  have := length_dropWhile_le' isIdentChar rest2
                  simp only [List.length_cons] at hl
                  omega
                have hname := hbound _ (List.mem_cons_self _ _)
                obtain ⟨v, hv⟩ := Option.isSome_iff_exists.mp hname
                obtain ⟨outd, hod, hndd⟩ := ih (rest2.dropWhile isIdentChar) td hdl htd
                  (fun m hm => hbound m (List.mem_cons_of_mem _ hm))
                refine ⟨v.data ++ outd, ?_, ?_⟩
                · rw [substAux_named vars fuel c2 rest2 h2 h3 h4, hv, hod]
                  rfl
                · intro hesc hclean hmem
                  rcases List.mem_append.mp hmem with hmv | hmd
                  · exact hclean _ v hv hmv
                  · exact hndd (fun he => hesc (List.mem_cons_of_mem _ he)) hclean hmd
              · rw [scanAux_invalid fuel c2 rest2 h2 h3 h4] at hscan
                cases hscan
      · -- ordinary character
        rw [scanAux_cons_ne fuel c rest hc] at hscan
        obtain ⟨out, ho, hnd⟩ := ih rest toks hl' hscan hbound
        refine ⟨c :: out, ?_, ?_⟩
        · rw [substAux_cons_ne vars fuel c rest hc, ho]
          rfl
        · intro hesc hclean hmem
          rcases List.mem_cons.mp hmem with hce | hco
          · exact hc hce.symm
          · exact hnd hesc hclean hco

/-- When the scan succeeds and some placeholder is unbound, substitution
fails with a missing-variable error naming the first unbound placeholder in
left-to-right order. -/
theorem substAux_missing_of_scan (vars : String → Option String) :
    ∀ fuel l toks n, l.length ≤ fuel → scanAux fuel l = some toks →
      firstUnbound vars toks = some n →
      substAux vars fuel l = .error (.missingVariable n) := by
  intro fuel
  induction fuel with
  | zero =>
    intro l toks n hl hscan hfind
    rw [List.length_eq_zero.mp (Nat.le_zero.mp hl)] at hscan
    simp only [scanAux, Option.some.injEq] at hscan
    subst hscan
    simp [firstUnbound, phNames] at hfind
  | succ fuel ih =>
    intro l toks n hl hscan hfind
    cases l with
    | nil =>
      simp only [scanAux, Option.some.injEq] at hscan
      subst hscan
      simp [firstUnbound, phNames] at hfind
    | cons c rest =>
      have hl' : rest.length ≤ fuel := Nat.le_of_succ_le_succ (by simpa using hl)
      by_cases hc : c = '$'
      · subst hc
        cases rest with
        | nil => rw [scanAux_dollar_end] at hscan; cases hscan
        | cons c2 rest2 =>
          by_cases h2 : c2 = '$'
          · subst h2
            rw [scanAux_escape] at hscan
            obtain ⟨t2, ht2, htoks⟩ := Option.map_eq_some'.mp hscan
            subst htoks
            have h2l : rest2.length ≤ fuel := by
              simp only [List.length_cons] at hl
              omega
            have hfind' : firstUnbound vars t2 = some n := by
              simpa [firstUnbound, phNames] using hfind
            rw [substAux_escape, ih rest2 t2 n h2l ht2 hfind']
            rfl
          · by_cases h3 : c2 = '{'
            · subst h3
              cases rest2 with
              | nil => rw [scanAux_brace_end] at hscan; cases hscan
              | cons c3 rest3 =>
                by_cases h4 : isIdentStart c3
                · cases hdw : rest3.dropWhile isIdentChar with
                  | nil =>
                    rw [scanAux_braced_nil_drop fuel c3 rest3 h4 hdw] at hscan
                    cases hscan
                  | cons c4 rest5 =>
                    by_cases h5 : c4 = '}'
                    · subst h5
                      rw [scanAux_braced_ok fuel c3 rest3 rest5 h4 hdw] at hscan
                      obtain ⟨t5, ht5, htoks⟩ := Option.map_eq_some'.mp hscan
                      subst htoks
                      have h5l : rest5.length ≤ fuel := by
                        have := length_dropWhile_le' isIdentChar rest3
                        rw [hdw] at this
                        simp only [List.length_cons] at this hl
                        omega
                      rw [substAux_braced vars fuel c3 rest3 rest5 h4 hdw]
                      cases hv : vars (String.mk (c3 :: rest3.takeWhile isIdentChar)) with
                      | none =>
                        have hn : String.mk (c3 :: rest3.takeWhile isIdentChar) = n := by
                          simpa [firstUnbound, phNames, List.find?, hv] using hfind
                        rw [hn]
                      | some v =>
                        have hfind' : firstUnbound vars t5 = some n := by
                          simpa [firstUnbound, phNames, List.find?, hv] using hfind
                        rw [ih rest5 t5 n h5l ht5 hfind']
                        rfl
                    · rw [scanAux_braced_no_close fuel c3 c4 rest3 rest5 h4 hdw h5] at hscan
                      cases hscan
                · rw [scanAux_braced_bad_start fuel c3 rest3 h4] at hscan
                  cases hscan
            · by_cases h4 : isIdentStart c2
              · rw [scanAux_named fuel c2 rest2 h2 h3 h4] at hscan
                obtain ⟨td, htd, htoks⟩ := Option.map_eq_some'.mp hscan
                subst htoks
                have hdl : (rest2.dropWhile isIdentChar).length ≤ fuel := by
                  have := length_dropWhile_le' isIdentChar rest2
                  simp only [List.length_cons] at hl
                  omega
                rw [substAux_named vars fuel c2 rest2 h2 h3 h4]
                cases hv : vars (String.mk (c2 :: rest2.takeWhile isIdentChar)) with
                | none =>
                  have hn : String.mk (c2 :: rest2.takeWhile isIdentChar) = n := by
                    simpa [firstUnbound, phNames, List.find?, hv] using hfind
                  rw [hn]
                | some v =>
                  have hfind' : firstUnbound vars td = some n := by
                    simpa [firstUnbound, phNames, List.find?, hv] using hfind
                  rw [ih (rest2.dropWhile isIdentChar) td n hdl htd hfind']
                  rfl
              · rw [scanAux_invalid fuel c2 rest2 h2 h3 h4] at hscan
                cases hscan
      · rw [scanAux_cons_ne fuel c rest hc] at hscan
        rw [substAux_cons_ne vars fuel c rest hc, ih rest toks n hl' hscan hfind]
        rfl


/-- **C4** (counterexample). The claim says re-rendering any successful
render output succeeds and returns it unchanged, for any variable map. But
`render("$$", {})` succeeds with output `"$"`, and rendering `"$"` fails
(invalid placeholder): a successful output can still contain `'$'`. -/
theorem C4_counterexample :
    render_template "$$" (fun _ => none) = .ok "$" ∧
    render_template "$" (fun _ => none) = .error .invalidPlaceholder := by
  decide

/-- **C4** (amended): rendering is idempotent on every string that contains
no `'$'` character — in particular on every render output whose template
used no `$$` escape and whose substituted values contain no `'$'`:
`render(p, v) = p` for every variable map `v`. -/
theorem C4_render_idempotent_on_dollar_free (p : String)
    (vars : String → Option String) (h : '$' ∉ p.data) :
    render_template p vars = .ok p := by
  unfold render_template
  rw [substAux_no_dollar vars p.data.length p.data (Nat.le_refl _) h]
  cases p
  rfl

/-- Witness for C4: the fully rendered `"Hello John from TechCorp!"`
re-renders to itself under the empty variable map. -/
theorem C4_render_idempotent_witness :
    render_template "Hello John from TechCorp!" (fun _ => none) =
      .ok "Hello John from TechCorp!" :=
  C4_render_idempotent_on_dollar_free "Hello John from TechCorp!" (fun _ => none) (by decide)

/-! ## Claim C2 — missing variables in `render_template` -/

/-- **C2** (counterexample). The claim quantifies over *every* template
containing an unbound placeholder. The template `"$! $x"` contains the
placeholder `$x` (unbound, as the second conjunct shows on `"$x"` alone),
yet rendering it fails with the invalid-placeholder `ValueError` raised at
`"$!"`, which names no placeholder — not with a missing-variable error
naming `x`. -/
theorem C2_counterexample :
    render_template "$! $x" (fun _ => none) = .error .invalidPlaceholder ∧
    render_template "$x" (fun _ => none) = .error (.missingVariable "x") ∧
    RenderError.invalidPlaceholder ≠ RenderError.missingVariable "x" := by
  refine ⟨by decide, by decide, by decide⟩

/-- **C2** (amended): for every template in which each `'$'` begins a
well-formed escape or placeholder (`scanTokens` succeeds), if some
placeholder is unbound then rendering fails with the missing-variable error
naming the first unbound placeholder in left-to-right order. -/
theorem C2_missing_variable_first (tmpl : String) (vars : String → Option String)
    (toks : List Tok) (hscan : scanTokens tmpl = some toks) (n : String)
    (hfind : firstUnbound vars toks = some n) :
    render_template tmpl vars = .error (.missingVariable n) := by
  unfold render_template
  rw [substAux_missing_of_scan vars tmpl.data.length tmpl.data toks n
    (Nat.le_refl _) hscan hfind]
  rfl

/-- Witness for C2: `render("Hello $name from $company!", {name: "John"})`
fails with the missing-variable error naming `company` — the first (and
only) unbound placeholder in left-to-right order. -/
theorem C2_missing_variable_witness :
    render_template "Hello $name from $company!"
      (fun s => if s = "name" then some "John" else none) =
      .error (.missingVariable "company") :=
  C2_missing_variable_first "Hello $name from $company!"
    (fun s => if s = "name" then some "John" else none)
    [Tok.ph "name", Tok.ph "company"] (by decide) "company" (by decide)

/-! ## Claim C3 — fully bound rendering -/

/-- **C3** (counterexample). The claim says that whenever every placeholder
has a matching key, rendering succeeds *and leaves zero `$`-prefixed
identifiers*. Values are inserted verbatim: rendering `"$x"` with
`{x: "$y"}` succeeds — the single placeholder is bound — but the output
`"$y"` still contains a `$`-prefixed identifier. -/
theorem C3_counterexample :
    render_template "$x" (fun s => if s = "x" then some "$y" else none) = .ok "$y" ∧
    '$' ∈ ("$y" : String).data := by
  refine ⟨by decide, by decide⟩

/-- **C3** (amended): for every template in which each `'$'` begins a
placeholder (`$id` or `${id}`, no `$$` escapes), if every placeholder has a
matching key then rendering *succeeds* — also when substituted values
themselves contain `'$'` — each placeholder replaced by its value verbatim;
if additionally no substituted value contains `'$'`, the output contains no
`'$'` at all, in particular zero `$`-prefixed identifiers. -/
theorem C3_render_success_no_remaining (tmpl : String) (vars : String → Option String)
    (toks : List Tok) (hscan : scanTokens tmpl = some toks)
    (hesc : Tok.escape ∉ toks)
    (hbound : ∀ m, Tok.ph m ∈ toks → (vars m).isSome) :
    ∃ out, render_template tmpl vars = .ok out ∧
      ((∀ m v, vars m = some v → '$' ∉ v.data) → '$' ∉ out.data) := by
  obtain ⟨out, ho, hnd⟩ :=
    substAux_ok_of_scan vars tmpl.data.length tmpl.data toks (Nat.le_refl _) hscan hbound
  refine ⟨String.mk out, ?_, ?_⟩
  · unfold render_template
    rw [ho]
    rfl
  · intro hclean
    simpa using hnd hesc hclean

/-- Witness for C3: `render("Hello $name from $company!", {name: "John",
company: "TechCorp"})` returns `"Hello John from TechCorp!"`, with no
`'$'` remaining. -/
theorem C3_render_success_witness :
    render_template "Hello $name from $company!"
      (fun s => if s = "name" then some "John"
        else if s = "company" then some "TechCorp" else none) =
      .ok "Hello John from TechCorp!" ∧
    '$' ∉ ("Hello John from TechCorp!" : String).data := by
  obtain ⟨out, ho, hnd⟩ := C3_render_success_no_remaining "Hello $name from $company!"
    (fun s => if s = "name" then some "John"
      else if s = "company" then some "TechCorp" else none)
    [Tok.ph "name", Tok.ph "company"] (by decide) (by decide)
    (by
      intro m hm
      simp only [List.mem_cons, List.not_mem_nil, or_false] at hm
      rcases hm with h | h
      · injection h with h'
        subst h'
        decide
      · injection h with h'
        subst h'
        decide)
  have hclean : ∀ m v, (fun s => if s = "name" then some "John"
      else if s = "company" then some "TechCorp" else none) m = some v →
      '$' ∉ v.data := by
    intro m v hv
    by_cases h1 : m = "name"
    · subst h1
      have hv' : v = "John" := by simpa using hv.symm
      subst hv'
      decide
    · by_cases h2 : m = "company"
      · subst h2
        have hv' : v = "TechCorp" := by simpa [h1] using hv.symm
        subst hv'
        decide
      · simp [h1, h2] at hv
  have hr : render_template "Hello $name from $company!"
      (fun s => if s = "name" then some "John"
        else if s = "company" then some "TechCorp" else none) =
      .ok "Hello John from TechCorp!" := by decide
  exact ⟨hr, by
    have : out = "Hello John from TechCorp!" := Except.ok.inj (ho.symm.trans hr)
    rw [← this]
    exact hnd hclean⟩

/-! ## Claim C1 — path confinement -/

theorem normSegsAux_append (l₁ l₂ : List String) :
    ∀ acc, normSegsAux acc (l₁ ++ l₂) = normSegsAux (normSegsAux acc l₁) l₂ := by
  induction l₁ with
  | nil => intro acc; rfl
  | cons s rest ih =>
    intro acc
    by_cases h1 : s = "."
    · simp only [List.cons_append, normSegsAux, h1, if_pos rfl]
      exact ih acc
    · by_cases h2 : s = ".."
      · simp only [List.cons_append, normSegsAux, h1, if_false, h2, if_pos rfl, if_neg h1]
        exact ih acc.dropLast
      · simp only [List.cons_append, normSegsAux, if_neg h1, if_neg h2]
        exact ih (acc ++ [s])

theorem normSegsAux_plain (l : List String)
    (h : ∀ s ∈ l, ¬ s = "." ∧ ¬ s = "..") :
    ∀ acc, normSegsAux acc l = acc ++ l := by
  induction l with
  | nil => intro acc; simp [normSegsAux]
  | cons s rest ih =>
    intro acc
    obtain ⟨h1, h2⟩ := h s (List.mem_cons_self _ _)
    simp only [normSegsAux, if_neg h1, if_neg h2]
    rw [ih (fun t ht => h t (List.mem_cons_of_mem _ ht)) (acc ++ [s])]
    simp

/-- The length contribution of each segment to `str(path)`: one separator
plus the segment's characters. -/
def segsLen (segs : List String) : Nat :=
  (segs.map fun s => 1 + s.data.length).sum

theorem pathString_foldl_length (segs : List String) :
    ∀ acc : List Char,
      (segs.foldl (fun acc s => acc ++ '/' :: s.data) acc).length =
        acc.length + segsLen segs := by
  induction segs with
  | nil => intro acc; simp [segsLen]
  | cons s rest ih =>
    intro acc
    simp only [List.foldl_cons, ih, segsLen, List.map_cons, List.sum_cons,
      List.length_append, List.length_cons]
    omega

theorem pathString_length_of_ne_nil (segs : List String) (h : ¬ segs = []) :
    (pathString segs).length = segsLen segs := by
  unfold pathString
  rw [if_neg (by simpa using h)]
  simpa using pathString_foldl_length segs []

theorem segsLen_dropLast_le : ∀ l : List String, segsLen l.dropLast ≤ segsLen l := by
  intro l
  induction l with
  | nil => exact Nat.le_refl _
  | cons s rest ih =>
    cases rest with
    | nil => simp [segsLen]
    | cons t rest2 =>
      have hd : (s :: t :: rest2).dropLast = s :: (t :: rest2).dropLast := rfl
      rw [hd]
      simp only [segsLen, List.map_cons, List.sum_cons] at ih ⊢
      omega

theorem validate_path_eq_of_resolves (resolve : PyPath → Option (List String))
    (fp bd : PyPath) (rp rb : List String)
    (hfp : resolve fp = some rp) (hbd : resolve bd = some rb) :
    validate_path resolve fp bd =
      if listStartsWith (pathString rb) (pathString rp) = true then .ok rp
      else .error .invalidPath := by
  unfold validate_path
  rw [hfp, hbd]

theorem validate_path_fail_left (resolve : PyPath → Option (List String))
    (fp bd : PyPath) (hfp : resolve fp = none) :
    validate_path resolve fp bd = .error .invalidPath := by
  unfold validate_path
  cases hbd : resolve bd <;> rw [hfp]

theorem validate_path_fail_right (resolve : PyPath → Option (List String))
    (fp bd : PyPath) (rp : List String)
    (hfp : resolve fp = some rp) (hbd : resolve bd = none) :
    validate_path resolve fp bd = .error .invalidPath := by
  unfold validate_path
  rw [hfp, hbd]

/-- **C1.** `_validate_path` succeeds exactly when both resolutions succeed
and the resolved base-directory string is a prefix of the resolved
candidate string, returning the resolved candidate; it fails otherwise,
including when resolution itself fails. In particular, on a symlink-free
filesystem with any plain working directory, `load_template` applied to
`"../../etc/passwd"` fails with the path `ValueError` for *every*
filesystem-content oracle — so before any file read occurs. -/
theorem C1_path_confinement (resolve : PyPath → Option (List String))
    (fp bd : PyPath) (r : List String) (cwd : List String)
    (fs : List String → Option String) :
    (validate_path resolve fp bd = .ok r ↔
      ∃ rp rb, resolve fp = some rp ∧ resolve bd = some rb ∧
        listStartsWith (pathString rb) (pathString rp) = true ∧ r = rp) ∧
    (plainCwd cwd = true →
      load_template (fun p => some (lexResolve cwd p)) fs
        ⟨false, ["..", "..", "etc", "passwd"]⟩ = .error .invalidPath) := by
  constructor
  · cases hfp : resolve fp with
    | none =>
      rw [validate_path_fail_left resolve fp bd hfp]
      simp [hfp]
    | some rp0 =>
      cases hbd : resolve bd with
      | none =>
        rw [validate_path_fail_right resolve fp bd rp0 hfp hbd]
        simp [hfp, hbd]
      | some rb0 =>
        rw [validate_path_eq_of_resolves resolve fp bd rp0 rb0 hfp hbd]
        by_cases hpre : listStartsWith (pathString rb0) (pathString rp0) = true
        · rw [if_pos hpre]
          constructor
          · intro h
            exact ⟨rp0, rb0, rfl, rfl, hpre, (Except.ok.inj h).symm⟩
          · rintro ⟨rp, rb, hrp, hrb, _, hr⟩
            obtain rfl := Option.some.inj hrp
            rw [hr]
        · rw [if_neg hpre]
          constructor
          · intro h
            cases h
          · rintro ⟨rp, rb, hrp, hrb, hsw, _⟩
            obtain rfl := Option.some.inj hrp
            obtain rfl := Option.some.inj hrb
            exact absurd hsw hpre
  · intro hcwd
    have hplain : ∀ s ∈ cwd, ¬ s = "." ∧ ¬ s = ".." := by
      intro s hs
      have := List.all_eq_true.mp hcwd s hs
      constructor <;> intro h <;> simp [h] at this
    have hbase : lexResolve cwd PROMPT_TEMPLATES_DIR = cwd ++ ["prompt_templates"] := by
      unfold lexResolve PROMPT_TEMPLATES_DIR
      simp only [Bool.false_eq_true, if_false]
      rw [normSegsAux_plain (cwd ++ ["prompt_templates"]) ?hp []]
      case hp =>
        intro s hs
        rcases List.mem_append.mp hs with h | h
        · exact hplain s h
        · simp only [List.mem_singleton] at h
          subst h
          exact ⟨by decide, by decide⟩
      simp
    have hcand : lexResolve cwd ⟨false, ["..", "..", "etc", "passwd"]⟩ =
        cwd.dropLast.dropLast ++ ["etc", "passwd"] := by
      unfold lexResolve
      simp only [Bool.false_eq_true, if_false]
      rw [normSegsAux_append cwd ["..", "..", "etc", "passwd"] []]
      rw [normSegsAux_plain cwd hplain []]
      simp only [List.nil_append]
      show normSegsAux cwd ["..", "..", "etc", "passwd"] = _
      rw [normSegsAux, if_neg (by decide), if_pos (by decide)]
      rw [normSegsAux, if_neg (by decide), if_pos (by decide)]
      rw [normSegsAux_plain ["etc", "passwd"] (by decide) cwd.dropLast.dropLast]
    have hlen : (pathString (cwd.dropLast.dropLast ++ ["etc", "passwd"])).length <
        (pathString (cwd ++ ["prompt_templates"])).length := by
      rw [pathString_length_of_ne_nil _ (by simp),
        pathString_length_of_ne_nil _ (by simp)]
      have h1 : segsLen (cwd ++ ["prompt_templates"]) = segsLen cwd + 17 := by
        simp only [segsLen, List.map_append, List.sum_append]
        have : (["prompt_templates"].map fun s => 1 + s.data.length).sum = 17 := by decide
        rw [this]
      have h2 : segsLen (cwd.dropLast.dropLast ++ ["etc", "passwd"]) =
          segsLen cwd.dropLast.dropLast + 11 := by
        simp only [segsLen, List.map_append, List.sum_append]
        have : (["etc", "passwd"].map fun s => 1 + s.data.length).sum = 11 := by decide
        rw [this]
      have h3 : segsLen cwd.dropLast.dropLast ≤ segsLen cwd :=
        Nat.le_trans (segsLen_dropLast_le _) (segsLen_dropLast_le _)
      omega
    have hpre : listStartsWith (pathString (cwd ++ ["prompt_templates"]))
        (pathString (cwd.dropLast.dropLast ++ ["etc", "passwd"])) = false := by
      cases hsw : listStartsWith (pathString (cwd ++ ["prompt_templates"]))
          (pathString (cwd.dropLast.dropLast ++ ["etc", "passwd"])) with
      | false => rfl
      | true =>
        exact absurd (listStartsWith_length_le _ _ hsw) (Nat.not_le.mpr hlen)
    have hval : validate_path (fun p => some (lexResolve cwd p))
        ⟨false, ["..", "..", "etc", "passwd"]⟩ PROMPT_TEMPLATES_DIR =
        .error .invalidPath := by
      rw [validate_path_eq_of_resolves (fun p => some (lexResolve cwd p))
        ⟨false, ["..", "..", "etc", "passwd"]⟩ PROMPT_TEMPLATES_DIR
        (lexResolve cwd ⟨false, ["..", "..", "etc", "passwd"]⟩)
        (lexResolve cwd PROMPT_TEMPLATES_DIR) rfl rfl]
      rw [hbase, hcand]
      rw [if_neg (by rw [hpre]; simp)]
    unfold load_template
    rw [hval]

/-- Witness for C1: under the concrete working directory
`/home/runner/work`, loading the template `"../../etc/passwd"` fails with
the path `ValueError` even though the filesystem oracle would return
content for every path. -/
theorem C1_path_confinement_witness :
    load_template (fun p => some (lexResolve ["home", "runner", "work"] p))
      (fun _ => some "SECRET") ⟨false, ["..", "..", "etc", "passwd"]⟩ =
      .error .invalidPath :=
  (C1_path_confinement (fun p => some (lexResolve ["home", "runner", "work"] p))
    ⟨false, []⟩ ⟨false, []⟩ [] ["home", "runner", "work"]
    (fun _ => some "SECRET")).2 (by decide)

end ProcessPrompt
